import Mathlib

/-!
Shallow embedding of the S3 WebDAV gateway worker (src/src/index.ts).

Conventions of the embedding:
* JS strings (URL pathnames, object keys, header values) are modelled as
  `List Char`, so that JS `slice`, `split`, `endsWith` and prefix tests map to
  `List.dropLast`, `List.splitOn`, suffix/prefix tests on lists.
* The S3 backend is modelled as an association list from keys to stored
  objects, plus a set of keys whose single-object DELETE calls fail at the
  store (the response is then non-2xx and the key is not removed).  HEAD is a
  lookup; PUT (including server-side copy via x-amz-copy-source) replaces or
  inserts and always succeeds; the batched multi-key delete always succeeds.
* JS `Date` objects are modelled by their `toUTCString` rendering.
* A thrown exception (an unchecked non-success store response) surfaces from
  the worker runtime as a generic 500; handlers return `(status, store)`.
* The S3 list API response is modelled structurally (already split into
  Contents entries, IsTruncated and NextContinuationToken) rather than as a
  raw XML string; `parseXmlToObjects` maps each Contents entry to an
  `S3Object` exactly as the regex extraction in the source does (missing
  `<Key>` drops the entry, the ETag has every quote removed, metadata `{}`).
* Pagination (`listAll`) is modelled over an abstract page store indexed by
  the continuation token, with explicit fuel for termination; handler-level
  listings (`s3List`) are modelled as the full filtered listing, delimiter
  mode keeping only keys with no further slash after the queried prefix
  (CommonPrefixes are never parsed by the source, so they do not appear).
-/

abbrev Key := List Char

/-- A JS `Date`, modelled by its `toUTCString` rendering. -/
structure DateM where
  utc : Key
deriving DecidableEq, Repr

def DateM.toUTCString (d : DateM) : Key := d.utc

/-- The `S3Object` interface of the source (src/src/index.ts lines 26-37). -/
structure S3Object where
  key : Key
  size : Nat
  lastModified : DateM
  etag : Key
  contentType : Option Key := none
  contentDisposition : Option Key := none
  contentLanguage : Option Key := none
  contentEncoding : Option Key := none
  cacheControl : Option Key := none
  metadata : Option (List (Key × Key)) := none
deriving DecidableEq, Repr

/-- The collection sentinel value stored in object metadata. -/
def collectionSentinel : Key := "<collection />".toList

/-- The metadata key `resourcetype` (header `x-amz-meta-resourcetype`). -/
def rtKey : Key := "resourcetype".toList

/-- Lookup in a JS object / metadata record modelled as an association list. -/
def assoc {α : Type} : List (Key × α) → Key → Option α
  | [], _ => none
  | (k', v) :: rest, k => if k' = k then some v else assoc rest k

/-- JS `s.endsWith('/')`. -/
def endsWithSlash (l : Key) : Bool := l.getLast? = some '/'

/-- `fromS3Object` (source lines 140-164).  The ambient `new Date()` used for
the synthetic root is passed explicitly as `now`. -/
structure DavProperties where
  creationdate : Option Key
  displayname : Option Key
  getcontentlanguage : Option Key
  getcontentlength : Option Key
  getcontenttype : Option Key
  getetag : Option Key
  getlastmodified : Option Key
  resourcetype : Key
deriving DecidableEq, Repr

def fromS3Object (now : DateM) : Option S3Object → DavProperties
  | none =>
    { creationdate := some now.toUTCString
      displayname := none
      getcontentlanguage := none
      getcontentlength := some "0".toList
      getcontenttype := none
      getetag := none
      getlastmodified := some now.toUTCString
      resourcetype := collectionSentinel }
  | some o =>
    { creationdate := some o.lastModified.toUTCString
      displayname := o.contentDisposition
      getcontentlanguage := o.contentLanguage
      getcontentlength := some (Nat.repr o.size).toList
      getcontenttype := o.contentType
      getetag := some o.etag
      getlastmodified := some o.lastModified.toUTCString
      resourcetype := (o.metadata.bind (fun m => assoc m rtKey)).getD [] }

/-- One `<Contents>` entry of a list-objects-v2 XML page, already structurally
split; `key`/`etag` are `none` when the corresponding tag is absent. -/
structure RawContent where
  key : Option Key
  size : Nat
  lastModified : DateM
  etag : Option Key
deriving DecidableEq, Repr

/-- One page of the list-objects-v2 response. -/
structure ListPage where
  contents : List RawContent
  isTruncated : Bool
  nextContinuationToken : Option Key
deriving DecidableEq, Repr

/-- `parseXmlToObjects` (source lines 64-89): entries without a `<Key>` are
skipped, the ETag has every quote character removed, metadata is `{}`. -/
def parseXmlToObjects (page : ListPage) : List S3Object :=
  page.contents.filterMap fun e =>
    match e.key with
    | none => none
    | some k =>
      some { key := k
             size := e.size
             lastModified := e.lastModified
             etag := (e.etag.getD []).filter (fun c => c ≠ '\"')
             metadata := some [] }

/-- The store's paginated list API: a page for each continuation token
(`none` = first request, no token), `none` result = non-success response. -/
def S3PageStore := Option Key → Option ListPage

/-- `listAll` (source lines 91-127) with explicit fuel.  After each page the
loop continues exactly when the page is truncated and its continuation token
is JS-truthy (present and non-empty), passing the token back verbatim;
`none` = a thrown store error or exhausted fuel (a nonterminating chain). -/
def listAll (store : S3PageStore) : Nat → Option Key → Option (List S3Object)
  | 0, _ => none
  | Nat.succ fuel, tok =>
    match store tok with
    | none => none
    | some page =>
      let objs := parseXmlToObjects page
      let next := if page.isTruncated then page.nextContinuationToken else none
      match next with
      | none => some objs
      | some t =>
        if t ≠ [] then
          match listAll store fuel (some t) with
          | none => none
          | some rest => some (objs ++ rest)
        else some objs

/-- A well-formed pagination chain: the store answers `tok` with the first
page of `ps`, every non-final page is truncated and carries a non-empty next
token under which the store serves the rest, and the final page reports no
truncation. -/
inductive PageChain (store : S3PageStore) : Option Key → List ListPage → Prop
  | last (tok : Option Key) (p : ListPage) :
      store tok = some p → p.isTruncated = false → PageChain store tok [p]
  | step (tok : Option Key) (p : ListPage) (t : Key) (ps : List ListPage) :
      store tok = some p → p.isTruncated = true →
      p.nextContinuationToken = some t → t ≠ [] →
      PageChain store (some t) ps → PageChain store tok (p :: ps)

/-- A stored object in the S3 bucket: content length, store timestamp, raw
ETag (as the store serves it in headers/XML), content headers, and the
`x-amz-meta-*` metadata map (keys without the prefix). -/
structure StoredObj where
  size : Nat
  lastModified : DateM
  etag : Key
  contentType : Option Key := none
  contentDisposition : Option Key := none
  contentLanguage : Option Key := none
  contentEncoding : Option Key := none
  cacheControl : Option Key := none
  meta : List (Key × Key) := []
deriving DecidableEq, Repr

/-- The S3 bucket state: the flat key space (in store order), the set of keys
whose single-object DELETE calls fail at the store, and the store clock used
to timestamp writes. -/
structure Store where
  objs : List (Key × StoredObj)
  deleteFails : List Key := []
  clock : DateM := ⟨[]⟩
deriving DecidableEq, Repr

/-- Replace-or-insert for the flat key space (S3 PUT semantics). -/
def putList : List (Key × StoredObj) → Key → StoredObj → List (Key × StoredObj)
  | [], k, o => [(k, o)]
  | (k', o') :: rest, k, o =>
    if k' = k then (k, o) :: rest else (k', o') :: putList rest k o

def storePut (s : Store) (k : Key) (o : StoredObj) : Store :=
  { s with objs := putList s.objs k o }

/-- A single-object DELETE request: fails (store state unchanged, non-success
response) exactly when the key is in `deleteFails`. -/
def storeDelete (s : Store) (k : Key) : Bool × Store :=
  if k ∈ s.deleteFails then (false, s)
  else (true, { s with objs := s.objs.filter (fun kv => kv.1 ≠ k) })

/-- A DELETE whose response is never inspected (source lines 963, 975, 1003,
1029): the store mutates on success, silently stays put on failure. -/
def storeDeleteIgnore (s : Store) (k : Key) : Store := (storeDelete s k).2

/-- The store's list-objects semantics used by the handlers: all keys under
`pre` in store order; with the `/` delimiter (`recursive = false`) only keys
with no further `/` after the queried prefix appear as Contents (collapsed
CommonPrefixes are never parsed by `parseXmlToObjects`, so they are absent
from the yielded records). -/
def s3List (s : Store) (pre : Key) (recursive : Bool) : List (Key × StoredObj) :=
  s.objs.filter fun kv =>
    pre.isPrefixOf kv.1 && (recursive || !((kv.1.drop pre.length).contains '/'))

/-- The `S3Object` the in-handler `listAll` yields for a listed key: fields
from the list XML (ETag quote-stripped), metadata `{}` (source lines 77-84). -/
def listedObject (k : Key) (o : StoredObj) : S3Object :=
  { key := k
    size := o.size
    lastModified := o.lastModified
    etag := o.etag.filter (fun c => c ≠ '\"')
    metadata := some [] }

/-- The `S3Object` built from a HEAD response in `handle_propfind`
(source lines 516-529). -/
def headS3Object (k : Key) (o : StoredObj) : S3Object :=
  { key := k
    size := o.size
    lastModified := o.lastModified
    etag := o.etag.filter (fun c => c ≠ '\"')
    contentType := o.contentType
    contentDisposition := o.contentDisposition
    contentLanguage := o.contentLanguage
    contentEncoding := o.contentEncoding
    cacheControl := o.cacheControl
    metadata := some [(rtKey, (assoc o.meta rtKey).getD [])] }

/-- The inbound WebDAV request: URL pathname and the headers the handlers
read.  Query strings are not modelled, so `request.url.endsWith('/')`
coincides with the pathname test. -/
structure Req where
  pathname : Key
  depth : Option Key := none
  overwrite : Option Key := none
  destination : Option Key := none
  contentType : Option Key := none
  contentDisposition : Option Key := none
  contentLanguage : Option Key := none
  contentEncoding : Option Key := none
  cacheControl : Option Key := none
  body : Key := []
deriving DecidableEq, Repr

/-- `make_resource_path` (source lines 166-170): drop the leading slash, then
one trailing slash if present. -/
def make_resource_path (r : Req) : Key :=
  let path := r.pathname.drop 1
  if endsWithSlash path then path.dropLast else path

/-- `resource_path.split('/').slice(0, -1).join('/')` (source lines 268, 423). -/
def parentDir (rp : Key) : Key :=
  List.intercalate ['/'] ((List.splitOn '/' rp).dropLast)

/-- Destination-header normalization in COPY/MOVE (source lines 741-742,
882-883): the header's URL pathname minus leading slash, minus one trailing
slash. -/
def normalizeDestination (dh : Key) : Key :=
  let d0 := dh.drop 1
  if endsWithSlash d0 then d0.dropLast else d0

/-- `destination.split('/').slice(0, destination.endsWith('/') ? -2 : -1)
.join('/')` (source lines 745-748, 886-889). -/
def destinationParent (destination : Key) : Key :=
  let segs := List.splitOn '/' destination
  List.intercalate ['/']
    (segs.take (segs.length - (if endsWithSlash destination then 2 else 1)))

/-- Per-descendant target key in recursive COPY/MOVE (source lines 795-796,
945-946). -/
def copyTargetKey (destination pre k : Key) : Key :=
  let t := destination ++ ['/'] ++ k.drop pre.length
  if endsWithSlash t then t.dropLast else t

/-- The object stored by `handle_put` (source lines 287-311): the request
body with the content headers copied when present; a plain S3 PUT carries no
`x-amz-meta-*` headers, so the stored metadata map is empty. -/
def putObjectOf (r : Req) (s : Store) : StoredObj :=
  { size := r.body.length
    lastModified := s.clock
    etag := []
    contentType := r.contentType
    contentDisposition := r.contentDisposition
    contentLanguage := r.contentLanguage
    contentEncoding := r.contentEncoding
    cacheControl := r.cacheControl
    meta := [] }

/-- `handle_put` (source lines 260-318). -/
def handle_put (r : Req) (s : Store) : Nat × Store :=
  if endsWithSlash r.pathname then (405, s)
  else
    let rp := make_resource_path r
    let dirpath := parentDir rp
    if dirpath ≠ [] then
      match assoc s.objs dirpath with
      | none => (409, s)
      | some p =>
        if assoc p.meta rtKey = some collectionSentinel then
          (201, storePut s rp (putObjectOf r s))
        else (409, s)
    else (201, storePut s rp (putObjectOf r s))

/-- `handle_delete` (source lines 320-405).  The whole-store and subtree
batch deletions go through the checked batch API (always succeeding in the
model); the single-object DELETE is checked and throws (500) on failure. -/
def handle_delete (r : Req) (s : Store) : Nat × Store :=
  let rp := make_resource_path r
  if rp = [] then (204, { s with objs := [] })
  else
    match assoc s.objs rp with
    | none => (404, s)
    | some o =>
      let res := storeDelete s rp
      if res.1 = false then (500, res.2)
      else if assoc o.meta rtKey ≠ some collectionSentinel then (204, res.2)
      else
        (204, { res.2 with
                objs := res.2.objs.filter
                  (fun kv => ¬ (rp ++ ['/']).isPrefixOf kv.1) })

/-- The PROPFIND result: status and, for 207, the multistatus response
entries in order (`none` = the synthesized root response). -/
structure PFRes where
  status : Nat
  entries : List (Option S3Object)
deriving DecidableEq, Repr

/-- The child listing of a PROPFIND at Depth 1 / infinity
(source lines 546-561). -/
def propfindList (s : Store) (rp : Key) (recursive : Bool) :
    List (Option S3Object) :=
  let pre := if rp = [] then rp else rp ++ ['/']
  (s3List s pre recursive).map (fun kv => some (listedObject kv.1 kv.2))

/-- The Depth dispatch of `handle_propfind` (source lines 541-566); it only
runs when the target is a collection. -/
def propfindDepthPart (r : Req) (s : Store) (rp : Key)
    (ent : Option S3Object) (is_collection : Bool) : PFRes :=
  if is_collection then
    let depth := r.depth.getD "infinity".toList
    if depth = "0".toList then ⟨207, [ent]⟩
    else if depth = "1".toList then ⟨207, ent :: propfindList s rp false⟩
    else if depth = "infinity".toList then ⟨207, ent :: propfindList s rp true⟩
    else ⟨403, []⟩
  else ⟨207, [ent]⟩

/-- `handle_propfind` (source lines 493-575).  It never mutates the store. -/
def handle_propfind (r : Req) (s : Store) : PFRes :=
  let rp := make_resource_path r
  if rp = [] then propfindDepthPart r s rp none true
  else
    match assoc s.objs rp with
    | none => ⟨404, []⟩
    | some o =>
      propfindDepthPart r s rp (some (headS3Object rp o))
        (decide (((assoc o.meta rtKey).getD []) = collectionSentinel))

/-- `handle_copy` (source lines 734-873).  The recursive listing is taken on
the pre-copy store; all per-descendant server-side copies succeed and are
joined, modelled as a fold. -/
def handle_copy (r : Req) (s : Store) : Nat × Store :=
  let rp := make_resource_path r
  let dont_overwrite := r.overwrite = some "F".toList
  match r.destination with
  | none => (400, s)
  | some dh =>
    let destination := normalizeDestination dh
    let destination_parent := destinationParent destination
    if destination_parent ≠ [] ∧ assoc s.objs destination_parent = none then
      (409, s)
    else
      let destination_exists := (assoc s.objs destination).isSome
      if destination_exists ∧ dont_overwrite then (412, s)
      else
        match assoc s.objs rp with
        | none => (404, s)
        | some src =>
          let is_dir := assoc src.meta rtKey = some collectionSentinel
          let status := if destination_exists then 204 else 201
          if is_dir then
            let depth := r.depth.getD "infinity".toList
            if depth = "infinity".toList then
              let pre := rp ++ ['/']
              let s1 := storePut s destination src
              let s2 := (s3List s pre true).foldl
                (fun acc kv =>
                  storePut acc (copyTargetKey destination pre kv.1) kv.2) s1
              (status, s2)
            else if depth = "0".toList then (status, storePut s destination src)
            else (400, s)
          else (status, storePut s destination src)

/-- `handle_move` (source lines 875-1041).  The pre-delete of an existing
destination goes through `handle_delete` with its result ignored; every
per-object source DELETE after a copy is issued without inspecting its
response (`storeDeleteIgnore`). -/
def handle_move (r : Req) (s : Store) : Nat × Store :=
  let rp := make_resource_path r
  let overwrite := r.overwrite = some "T".toList
  match r.destination with
  | none => (400, s)
  | some dh =>
    let destination := normalizeDestination dh
    let destination_parent := destinationParent destination
    if destination_parent ≠ [] ∧ assoc s.objs destination_parent = none then
      (409, s)
    else
      let destination_exists := (assoc s.objs destination).isSome
      if destination_exists ∧ ¬overwrite then (412, s)
      else
        match assoc s.objs rp with
        | none => (404, s)
        | some src =>
          if rp = destination then (400, s)
          else
            let s0 := if destination_exists then
                (handle_delete { r with pathname := dh } s).2
              else s
            let is_dir := assoc src.meta rtKey = some collectionSentinel
            let status := if destination_exists then 204 else 201
            if is_dir then
              let depth := r.depth.getD "infinity".toList
              if depth = "infinity".toList then
                let pre := rp ++ ['/']
                let s1 := storeDeleteIgnore (storePut s0 destination src) rp
                let s2 := (s3List s0 pre true).foldl
                  (fun acc kv =>
                    storeDeleteIgnore
                      (storePut acc (copyTargetKey destination pre kv.1) kv.2)
                      kv.1) s1
                (status, s2)
              else if depth = "0".toList then
                (status, storeDeleteIgnore (storePut s0 destination src) rp)
              else (400, s0)
            else (status, storeDeleteIgnore (storePut s0 destination src) rp)

/-! ### Helper lemmas -/

theorem assoc_putList_self (l : List (Key × StoredObj)) (k : Key) (o : StoredObj) :
    assoc (putList l k o) k = some o := by
  induction l with
  | nil => simp [putList, assoc]
  | cons hd tl ih =>
    by_cases h : hd.1 = k
    · simp [putList, assoc, h]
    · simp [putList, assoc, h, ih]

theorem assoc_putList_ne (l : List (Key × StoredObj)) (k : Key) (o : StoredObj)
    (k' : Key) (h : k' ≠ k) : assoc (putList l k o) k' = assoc l k' := by
  induction l with
  | nil =>
    simp only [putList, assoc]
    rw [if_neg (Ne.symm h)]
  | cons hd tl ih =>
    by_cases hk : hd.1 = k
    · subst hk
      simp only [putList, if_pos rfl, assoc]
      rw [if_neg (Ne.symm h), if_neg (Ne.symm h)]
    · simp only [putList, if_neg hk, assoc]
      by_cases hk' : hd.1 = k'
      · simp [hk']
      · simp [hk', ih]

/-! ### C1: listAll pagination -/

/-- C1.  For every well-formed chain of pages that the store serves under the
continuation tokens (each non-final page truncated with a non-empty verbatim
token, the final page not truncated), `listAll` enumerates exactly the chain:
it stops at the first non-truncated page and yields the parse of every page
once, page after page, in store order (no re-sorting). -/
theorem listAll_pageChain_flatten (store : S3PageStore) (tok : Option Key)
    (ps : List ListPage) (fuel : Nat) (hc : PageChain store tok ps)
    (hf : ps.length ≤ fuel) :
    listAll store fuel tok = some (ps.map parseXmlToObjects).flatten := by
  induction hc generalizing fuel with
  | last tok p hst htr =>
    match fuel, hf with
    | Nat.succ n, _ =>
      simp [listAll, hst, htr]
  | step tok p t ps hst htr hnt hne hch ih =>
    match fuel, hf with
    | Nat.succ n, hf =>
      have hf' : ps.length ≤ n := Nat.succ_le_succ_iff.mp (by simpa using hf)
      simp [listAll, hst, htr, hnt, hne, ih n hf']

/-- A concrete two-page store for exercising the pagination theorem. -/
def pageOne : ListPage :=
  { contents := [{ key := some "k1".toList, size := 1,
                   lastModified := ⟨"t1".toList⟩, etag := some "\"e1\"".toList }]
    isTruncated := true
    nextContinuationToken := some "TOK".toList }

def pageTwo : ListPage :=
  { contents := [{ key := some "k2".toList, size := 2,
                   lastModified := ⟨"t2".toList⟩, etag := none }]
    isTruncated := false
    nextContinuationToken := none }

def twoPageStore : S3PageStore := fun tok =>
  if tok = none then some pageOne
  else if tok = some "TOK".toList then some pageTwo
  else none

/-- Witness for C1: the theorem applied to a concrete two-page chain. -/
theorem listAll_pageChain_flatten_witness :
    listAll twoPageStore 2 none
      = some (([pageOne, pageTwo].map parseXmlToObjects).flatten) :=
  listAll_pageChain_flatten twoPageStore none [pageOne, pageTwo] 2
    (PageChain.step none pageOne "TOK".toList [pageTwo] (by decide) (by decide)
      (by decide) (by decide)
      (PageChain.last (some "TOK".toList) pageTwo (by decide) (by decide)))
    (by decide)

/-! ### C2: PROPFIND with an invalid Depth header -/

/-- Counterexample to C2 as stated: a PROPFIND on an existing plain (non-
collection) resource with the invalid Depth value `2` is answered 207 with
the single self entry, not 403 — the Depth dispatch only runs for
collections. -/
def c2Obj : StoredObj := { size := 3, lastModified := ⟨"t".toList⟩, etag := [] }

theorem propfind_plain_resource_ignores_depth :
    ("2".toList ≠ "0".toList ∧ "2".toList ≠ "1".toList ∧
      "2".toList ≠ "infinity".toList) ∧
    handle_propfind { pathname := "/a".toList, depth := some "2".toList }
        { objs := [("a".toList, c2Obj)] }
      = ⟨207, [some (headS3Object "a".toList c2Obj)]⟩ := by
  decide


/-- Unfolding of `handle_propfind` at an existing non-root target. -/
theorem handle_propfind_found (r : Req) (s : Store) (o : StoredObj)
    (hne : make_resource_path r ≠ [])
    (ho : assoc s.objs (make_resource_path r) = some o) :
    handle_propfind r s = propfindDepthPart r s (make_resource_path r)
      (some (headS3Object (make_resource_path r) o))
      (decide (((assoc o.meta rtKey).getD []) = collectionSentinel)) := by
  simp only [handle_propfind, if_neg hne, ho]

/-- Unfolding of `handle_propfind` at the namespace root. -/
theorem handle_propfind_root (r : Req) (s : Store)
    (hrp : make_resource_path r = []) :
    handle_propfind r s
      = propfindDepthPart r s (make_resource_path r) none true := by
  simp only [handle_propfind, if_pos hrp, hrp, if_true]

/-- The Depth dispatch rejects every value outside 0 / 1 / infinity. -/
theorem propfindDepthPart_invalid (r : Req) (s : Store) (rp : Key)
    (ent : Option S3Object) (d : Key) (hd : r.depth = some d)
    (h0 : d ≠ "0".toList) (h1 : d ≠ "1".toList) (hi : d ≠ "infinity".toList) :
    propfindDepthPart r s rp ent true = ⟨403, []⟩ := by
  simp only [propfindDepthPart, hd, Option.getD_some, if_true]
  rw [if_neg h0, if_neg h1, if_neg hi]

/-- For a non-collection target the Depth dispatch never runs. -/
theorem propfindDepthPart_plain (r : Req) (s : Store) (rp : Key)
    (ent : Option S3Object) :
    propfindDepthPart r s rp ent false = ⟨207, [ent]⟩ := by
  simp [propfindDepthPart]

/-- C2 amended.  A PROPFIND whose Depth header is neither `0`, `1` nor
`infinity` is answered 403 exactly when the target is a collection (the
root, or an existing object carrying the collection sentinel); for an
existing plain resource the Depth dispatch never runs and the handler
answers 207 with the single self entry. -/
theorem propfind_invalid_depth_403_on_collections (r : Req) (s : Store)
    (d : Key) (hd : r.depth = some d) (h0 : d ≠ "0".toList)
    (h1 : d ≠ "1".toList) (hi : d ≠ "infinity".toList) :
    ((make_resource_path r = [] ∨
      (∃ o, assoc s.objs (make_resource_path r) = some o ∧
        (assoc o.meta rtKey).getD [] = collectionSentinel)) →
      handle_propfind r s = ⟨403, []⟩) ∧
    (∀ o, make_resource_path r ≠ [] →
      assoc s.objs (make_resource_path r) = some o →
      (assoc o.meta rtKey).getD [] ≠ collectionSentinel →
      handle_propfind r s
        = ⟨207, [some (headS3Object (make_resource_path r) o)]⟩) := by
  constructor
  · rintro (hroot | ⟨o, ho, hsent⟩)
    · rw [handle_propfind_root r s hroot]
      exact propfindDepthPart_invalid r s _ none d hd h0 h1 hi
    · by_cases hrp : make_resource_path r = []
      · rw [handle_propfind_root r s hrp]
        exact propfindDepthPart_invalid r s _ none d hd h0 h1 hi
      · rw [handle_propfind_found r s o hrp ho]
        have hb : decide (((assoc o.meta rtKey).getD [])
            = collectionSentinel) = true := by
          rw [hsent]
          exact decide_eq_true rfl
        rw [hb]
        exact propfindDepthPart_invalid r s _ _ d hd h0 h1 hi
  · intro o hrp ho hsent
    rw [handle_propfind_found r s o hrp ho]
    have hb : decide (((assoc o.meta rtKey).getD [])
        = collectionSentinel) = false := decide_eq_false hsent
    rw [hb]
    exact propfindDepthPart_plain r s _ _

/-- A concrete collection object for the C2 witness. -/
def c2ColObj : StoredObj :=
  { size := 0, lastModified := ⟨"t".toList⟩, etag := [],
    meta := [(rtKey, collectionSentinel)] }

/-- Witness for the amended C2: a collection target with Depth `2` gets 403. -/
theorem propfind_invalid_depth_403_witness :
    handle_propfind
        { pathname := "/col".toList, depth := some "2".toList }
        { objs := [("col".toList, c2ColObj)] }
      = ⟨403, []⟩ :=
  (propfind_invalid_depth_403_on_collections
    { pathname := "/col".toList, depth := some "2".toList }
    { objs := [("col".toList, c2ColObj)] }
    "2".toList rfl (by decide) (by decide) (by decide)).1
    (Or.inr ⟨c2ColObj, by decide, by decide⟩)

/-! ### C3: PUT preconditions and effect -/

/-- C3.  A PUT on a URL path ending in `/` is 405 with no store write; a PUT
whose normalized path has a non-empty parent segment that is absent or not
sentinel-marked is 409 with no store write; otherwise the request body (with
the content headers copied from the request) replaces the object at the key
and the response is 201. -/
theorem handle_put_spec (r : Req) (s : Store) :
    (endsWithSlash r.pathname = true → handle_put r s = (405, s)) ∧
    (endsWithSlash r.pathname = false →
      parentDir (make_resource_path r) ≠ [] →
      (∀ p, assoc s.objs (parentDir (make_resource_path r)) = some p →
        assoc p.meta rtKey ≠ some collectionSentinel) →
      handle_put r s = (409, s)) ∧
    (endsWithSlash r.pathname = false →
      (parentDir (make_resource_path r) = [] ∨
        ∃ p, assoc s.objs (parentDir (make_resource_path r)) = some p ∧
          assoc p.meta rtKey = some collectionSentinel) →
      handle_put r s
        = (201, storePut s (make_resource_path r) (putObjectOf r s))) := by
  refine ⟨?_, ?_, ?_⟩
  · intro h
    simp [handle_put, h]
  · intro h hpar hbad
    simp only [handle_put, h, Bool.false_eq_true, if_false, if_neg]
    rw [if_pos hpar]
    cases hp : assoc s.objs (parentDir (make_resource_path r)) with
    | none => rfl
    | some p =>
      exact if_neg (hbad p hp)
  · intro h hok
    simp only [handle_put, h, Bool.false_eq_true, if_false, if_neg]
    rcases hok with hroot | ⟨p, hp, hsent⟩
    · rw [if_neg (by simpa using hroot)]
    · by_cases hpar : parentDir (make_resource_path r) = []
      · rw [if_neg (by simpa using hpar)]
      · rw [if_pos hpar, hp]
        exact if_pos hsent

/-- Witness for C3: the three legs at concrete requests — trailing slash 405,
missing parent 409, sentinel-marked parent 201 with the object stored. -/
theorem handle_put_spec_witness :
    handle_put { pathname := "/a/".toList } { objs := [] } = (405, { objs := [] }) ∧
    handle_put { pathname := "/a/b".toList } { objs := [] } = (409, { objs := [] }) ∧
    handle_put { pathname := "/a/b".toList, body := "xyz".toList }
        { objs := [("a".toList, c2ColObj)] }
      = (201, storePut { objs := [("a".toList, c2ColObj)] } "a/b".toList
          (putObjectOf { pathname := "/a/b".toList, body := "xyz".toList }
            { objs := [("a".toList, c2ColObj)] })) := by
  refine ⟨?_, ?_, ?_⟩
  · exact (handle_put_spec { pathname := "/a/".toList } { objs := [] }).1 (by decide)
  · exact (handle_put_spec { pathname := "/a/b".toList } { objs := [] }).2.1
      (by decide) (by decide) (by decide)
  · exact (handle_put_spec { pathname := "/a/b".toList, body := "xyz".toList }
      { objs := [("a".toList, c2ColObj)] }).2.2 (by decide)
      (Or.inr ⟨c2ColObj, by decide, by decide⟩)

/-! ### C4: COPY with Overwrite F onto an existing destination -/

def c4Obj : StoredObj := { size := 1, lastModified := ⟨"t".toList⟩, etag := [] }

def c4Store : Store :=
  { objs := [("src".toList, c4Obj), ("a/b".toList, c4Obj)] }

def c4Req : Req :=
  { pathname := "/src".toList, overwrite := some "F".toList,
    destination := some "/a/b".toList }

/-- Counterexample to C4 as stated: the destination key `a/b` exists and the
request carries `Overwrite: F`, yet the response is 409, not 412 — the
destination-parent check runs first and the parent key `a` is absent. -/
theorem handle_copy_orphan_destination_409 :
    (assoc c4Store.objs (normalizeDestination "/a/b".toList)).isSome = true ∧
    c4Req.overwrite = some "F".toList ∧
    handle_copy c4Req c4Store = (409, c4Store) := by
  decide

/-- C4 amended.  A COPY carrying `Overwrite: F` whose destination key exists
is answered 412 with the store left exactly as it was, provided its
destination parent segment is empty or present (otherwise the earlier parent
check answers 409). -/
theorem handle_copy_overwriteF_existing_412 (r : Req) (s : Store) (dh : Key)
    (hdh : r.destination = some dh)
    (hov : r.overwrite = some "F".toList)
    (hpar : destinationParent (normalizeDestination dh) = [] ∨
      (assoc s.objs (destinationParent (normalizeDestination dh))).isSome
        = true)
    (hex : (assoc s.objs (normalizeDestination dh)).isSome = true) :
    handle_copy r s = (412, s) := by
  have hpar' : ¬(destinationParent (normalizeDestination dh) ≠ [] ∧
      assoc s.objs (destinationParent (normalizeDestination dh)) = none) := by
    rcases hpar with h | h
    · intro hc
      exact hc.1 h
    · intro hc
      rw [hc.2] at h
      simp at h
  simp only [handle_copy, hdh]
  rw [if_neg hpar', if_pos ⟨hex, hov⟩]

def c4StoreOk : Store :=
  { objs := [("src".toList, c4Obj), ("a".toList, c2ColObj),
             ("a/b".toList, c4Obj)] }

/-- Witness for the amended C4. -/
theorem handle_copy_overwriteF_existing_412_witness :
    handle_copy c4Req c4StoreOk = (412, c4StoreOk) :=
  handle_copy_overwriteF_existing_412 c4Req c4StoreOk "/a/b".toList rfl rfl
    (Or.inr (by decide)) (by decide)

/-! ### C5: PROPFIND Depth 1 yields exactly self plus immediate children -/

/-- The Depth dispatch at Depth `1` yields self plus the one-level listing. -/
theorem propfindDepthPart_depth1 (r : Req) (s : Store) (rp : Key)
    (ent : Option S3Object) (hd : r.depth = some "1".toList) :
    propfindDepthPart r s rp ent true
      = ⟨207, ent :: propfindList s rp false⟩ := by
  simp only [propfindDepthPart, hd, Option.getD_some, if_true]
  rw [if_neg (by decide)]

def c5Req : Req := { pathname := "/c".toList, depth := some "1".toList }

/-- Collection `c` with plain child `c/a`, sentinel-marked sub-collection
`c/b`, and an arbitrary batch `gs` of keys below `c/b/`. -/
def c5Store (oa ob oc : StoredObj) (gs : List (Key × StoredObj))
    (df : List Key) (ck : DateM) : Store :=
  { objs := [("c".toList, oc), ("c/a".toList, oa), ("c/b".toList, ob)] ++ gs
    deleteFails := df
    clock := ck }

/-- C5.  PROPFIND with Depth 1 on collection `c` whose immediate children
are the plain resource `c/a` and the sentinel-marked sub-collection `c/b`
returns exactly three response entries — self, `c/a`, `c/b` — and none for
any of the arbitrarily many descendants below `c/b/`. -/
theorem propfind_depth1_exactly_three (oa ob oc : StoredObj)
    (gs : List (Key × StoredObj)) (df : List Key) (ck : DateM)
    (hoc : assoc oc.meta rtKey = some collectionSentinel)
    (hob : assoc ob.meta rtKey = some collectionSentinel)
    (hg : ∀ kv ∈ gs, ("c/b/".toList).isPrefixOf kv.1 = true) :
    handle_propfind c5Req (c5Store oa ob oc gs df ck)
      = ⟨207, [some (headS3Object "c".toList oc),
               some (listedObject "c/a".toList oa),
               some (listedObject "c/b".toList ob)]⟩ := by
  have hobKept : assoc ob.meta rtKey = some collectionSentinel := hob
  have ho : assoc (c5Store oa ob oc gs df ck).objs
      (make_resource_path c5Req) = some oc := rfl
  rw [handle_propfind_found _ _ oc (by decide) ho]
  have hb : decide (((assoc oc.meta rtKey).getD [])
      = collectionSentinel) = true := by
    rw [hoc]
    exact decide_eq_true rfl
  rw [hb, propfindDepthPart_depth1 _ _ _ _ rfl]
  have hrp : make_resource_path c5Req = "c".toList := by decide
  rw [hrp]
  have hgs : List.filter (fun kv =>
      ("c/".toList).isPrefixOf kv.1 &&
        (false || !((kv.1.drop ("c/".toList).length).contains '/'))) gs
      = [] := by
    rw [List.filter_eq_nil_iff]
    intro kv hkv
    obtain ⟨t, ht⟩ := List.isPrefixOf_iff_prefix.mp (hg kv hkv)
    rw [← ht]
    simp [List.contains_cons]
  have hpre : (if ("c".toList : Key) = [] then ("c".toList : Key)
      else "c".toList ++ ['/']) = "c/".toList := by decide
  simp only [propfindList, s3List, c5Store, hpre, List.filter_append, hgs]
  rw [List.filter_cons_of_neg (by exact Bool.false_ne_true),
      List.filter_cons_of_pos (by exact rfl),
      List.filter_cons_of_pos (by exact rfl)]
  simp

/-- Witness for C5 at two concrete grandchildren below `c/b/`. -/
theorem propfind_depth1_exactly_three_witness :
    handle_propfind c5Req
        (c5Store c4Obj c2ColObj c2ColObj
          [("c/b/g1".toList, c4Obj), ("c/b/g2".toList, c4Obj)] [] ⟨[]⟩)
      = ⟨207, [some (headS3Object "c".toList c2ColObj),
               some (listedObject "c/a".toList c4Obj),
               some (listedObject "c/b".toList c2ColObj)]⟩ :=
  propfind_depth1_exactly_three c4Obj c2ColObj c2ColObj
    [("c/b/g1".toList, c4Obj), ("c/b/g2".toList, c4Obj)] [] ⟨[]⟩
    (by decide) (by decide) (by decide)

/-! ### C6: the fromS3Object property mapping -/

/-- A record whose metadata carries a non-sentinel `resourcetype` (reachable
via PROPPATCH) and a quoted etag field. -/
def c6Obj : S3Object :=
  { key := "k".toList, size := 1, lastModified := ⟨"t".toList⟩,
    etag := "\"h\"".toList,
    metadata := some [(rtKey, "foo".toList)] }

/-- Counterexample to C6 as stated: the record's metadata does not carry the
collection sentinel, yet `resourcetype` is `foo`, not the empty string —
the value is passed through verbatim; and `getetag` returns the etag field
unchanged (still quoted), not quote-stripped. -/
theorem fromS3Object_passthrough_counterexample :
    (c6Obj.metadata.bind (fun m => assoc m rtKey)) ≠ some collectionSentinel ∧
    (fromS3Object ⟨"n".toList⟩ (some c6Obj)).resourcetype = "foo".toList ∧
    "foo".toList ≠ ([] : Key) ∧
    (fromS3Object ⟨"n".toList⟩ (some c6Obj)).getetag = some "\"h\"".toList ∧
    "\"h\"".toList ≠ "h".toList := by
  decide

/-- C6 amended.  For every non-null record, `fromS3Object` returns
creationdate and getlastmodified both equal to the record's last-modified
timestamp, getcontentlength the decimal size, getetag the record's etag
field verbatim (quote-stripping happens where records are constructed, not
here), and resourcetype the metadata's `resourcetype` entry passed through —
so it equals `<collection />` iff the metadata carries exactly the sentinel,
and it is the empty string when the entry is absent (but a non-sentinel
stored value is returned as-is, not replaced by the empty string). -/
theorem fromS3Object_field_map (o : S3Object) (now : DateM) :
    (fromS3Object now (some o)).creationdate
        = some o.lastModified.toUTCString ∧
    (fromS3Object now (some o)).getlastmodified
        = some o.lastModified.toUTCString ∧
    (fromS3Object now (some o)).getcontentlength
        = some (Nat.repr o.size).toList ∧
    (fromS3Object now (some o)).getetag = some o.etag ∧
    ((fromS3Object now (some o)).resourcetype = collectionSentinel ↔
      o.metadata.bind (fun m => assoc m rtKey) = some collectionSentinel) ∧
    (o.metadata.bind (fun m => assoc m rtKey) = none →
      (fromS3Object now (some o)).resourcetype = []) := by
  refine ⟨rfl, rfl, rfl, rfl, ?_, ?_⟩
  · cases hm : o.metadata.bind (fun m => assoc m rtKey) with
    | none =>
      simp [fromS3Object, hm]
      decide
    | some v =>
      simp [fromS3Object, hm]
  · intro hm
    simp [fromS3Object, hm]

/-- Witness for the amended C6, at a sentinel-carrying record. -/
def c6ColObj : S3Object :=
  { key := "d".toList, size := 0, lastModified := ⟨"t".toList⟩, etag := [],
    metadata := some [(rtKey, collectionSentinel)] }

theorem fromS3Object_field_map_witness :
    (fromS3Object ⟨"n".toList⟩ (some c6ColObj)).resourcetype
      = collectionSentinel :=
  (fromS3Object_field_map c6ColObj ⟨"n".toList⟩).2.2.2.2.1.mpr (by decide)

/-! ### C7: MOVE with source equal to destination -/

def c7Store : Store := { objs := [("a".toList, c4Obj)] }

def c7Req : Req :=
  { pathname := "/a".toList, destination := some "/a".toList }

/-- Counterexample to C7 as stated: a MOVE whose normalized source equals its
normalized destination, on an existing key, but without `Overwrite: T`, is
answered 412 — the destination-exists overwrite check fires before the
self-move check ever runs. -/
theorem handle_move_self_without_overwrite_412 :
    make_resource_path c7Req = normalizeDestination "/a".toList ∧
    (assoc c7Store.objs (make_resource_path c7Req)).isSome = true ∧
    handle_move c7Req c7Store = (412, c7Store) := by
  decide

/-- C7 amended.  A MOVE whose normalized source equals its normalized
destination, on an existing key, is answered 400 (and refused, the store
untouched) provided the request carries `Overwrite: T` and the destination
parent segment is empty or present; without `Overwrite: T` the 412
precondition check fires first instead. -/
theorem handle_move_self_requires_overwriteT (r : Req) (s : Store) (dh : Key)
    (o : StoredObj)
    (hdh : r.destination = some dh)
    (hov : r.overwrite = some "T".toList)
    (hself : make_resource_path r = normalizeDestination dh)
    (hex : assoc s.objs (normalizeDestination dh) = some o)
    (hpar : destinationParent (normalizeDestination dh) = [] ∨
      (assoc s.objs (destinationParent (normalizeDestination dh))).isSome
        = true) :
    handle_move r s = (400, s) := by
  have hpar' : ¬(destinationParent (normalizeDestination dh) ≠ [] ∧
      assoc s.objs (destinationParent (normalizeDestination dh)) = none) := by
    rcases hpar with h | h
    · intro hc
      exact hc.1 h
    · intro hc
      rw [hc.2] at h
      simp at h
  simp only [handle_move, hdh]
  rw [if_neg hpar', if_neg (fun hc => hc.2 hov), hself, hex]
  exact if_pos rfl

/-- Witness for the amended C7. -/
theorem handle_move_self_requires_overwriteT_witness :
    handle_move
        { pathname := "/a".toList, destination := some "/a".toList,
          overwrite := some "T".toList } c7Store
      = (400, c7Store) :=
  handle_move_self_requires_overwriteT
    { pathname := "/a".toList, destination := some "/a".toList,
      overwrite := some "T".toList } c7Store "/a".toList c4Obj
    rfl rfl (by decide) (by decide) (Or.inl (by decide))

/-! ### C8: destination-side checks run before the source existence check -/

/-- C8.  In both COPY and MOVE the destination-parent 409 check and the
destination-exists overwrite 412 check run before the source HEAD: a request
whose source key is absent is answered 409 when the destination parent is
missing, and 412 when the destination exists under a forbidding Overwrite
header — never reaching the 404 branch. -/
theorem copy_move_destination_checks_precede_source :
    (∀ (r : Req) (s : Store) (dh : Key), r.destination = some dh →
      assoc s.objs (make_resource_path r) = none →
      destinationParent (normalizeDestination dh) ≠ [] →
      assoc s.objs (destinationParent (normalizeDestination dh)) = none →
      handle_copy r s = (409, s)) ∧
    (∀ (r : Req) (s : Store) (dh : Key), r.destination = some dh →
      assoc s.objs (make_resource_path r) = none →
      r.overwrite = some "F".toList →
      (destinationParent (normalizeDestination dh) = [] ∨
        (assoc s.objs (destinationParent (normalizeDestination dh))).isSome
          = true) →
      (assoc s.objs (normalizeDestination dh)).isSome = true →
      handle_copy r s = (412, s)) ∧
    (∀ (r : Req) (s : Store) (dh : Key), r.destination = some dh →
      assoc s.objs (make_resource_path r) = none →
      destinationParent (normalizeDestination dh) ≠ [] →
      assoc s.objs (destinationParent (normalizeDestination dh)) = none →
      handle_move r s = (409, s)) ∧
    (∀ (r : Req) (s : Store) (dh : Key), r.destination = some dh →
      assoc s.objs (make_resource_path r) = none →
      r.overwrite ≠ some "T".toList →
      (destinationParent (normalizeDestination dh) = [] ∨
        (assoc s.objs (destinationParent (normalizeDestination dh))).isSome
          = true) →
      (assoc s.objs (normalizeDestination dh)).isSome = true →
      handle_move r s = (412, s)) := by
  refine ⟨?_, ?_, ?_, ?_⟩
  · intro r s dh hdh hsrc hpne hpnone
    simp only [handle_copy, hdh]
    rw [if_pos ⟨hpne, hpnone⟩]
  · intro r s dh hdh hsrc hov hpar hex
    have hpar' : ¬(destinationParent (normalizeDestination dh) ≠ [] ∧
        assoc s.objs (destinationParent (normalizeDestination dh)) = none) := by
      rcases hpar with h | h
      · intro hc
        exact hc.1 h
      · intro hc
        rw [hc.2] at h
        simp at h
    simp only [handle_copy, hdh]
    rw [if_neg hpar', if_pos ⟨hex, hov⟩]
  · intro r s dh hdh hsrc hpne hpnone
    simp only [handle_move, hdh]
    rw [if_pos ⟨hpne, hpnone⟩]
  · intro r s dh hdh hsrc hov hpar hex
    have hpar' : ¬(destinationParent (normalizeDestination dh) ≠ [] ∧
        assoc s.objs (destinationParent (normalizeDestination dh)) = none) := by
      rcases hpar with h | h
      · intro hc
        exact hc.1 h
      · intro hc
        rw [hc.2] at h
        simp at h
    simp only [handle_move, hdh]
    rw [if_neg hpar', if_pos ⟨hex, hov⟩]

def c8Store : Store := { objs := [("a/b".toList, c4Obj)] }

/-- Witness for C8: an absent source receives 409 (missing destination
parent) and 412 (existing destination, forbidding Overwrite) from both COPY
and MOVE. -/
theorem copy_move_destination_checks_precede_source_witness :
    handle_copy
        { pathname := "/zz".toList, destination := some "/q/w".toList }
        c8Store = (409, c8Store) ∧
    handle_copy
        { pathname := "/zz".toList, overwrite := some "F".toList,
          destination := some "/a/b".toList }
        { objs := [("a".toList, c2ColObj), ("a/b".toList, c4Obj)] }
      = (412, { objs := [("a".toList, c2ColObj), ("a/b".toList, c4Obj)] }) ∧
    handle_move
        { pathname := "/zz".toList, destination := some "/q/w".toList }
        c8Store = (409, c8Store) ∧
    handle_move
        { pathname := "/zz".toList, destination := some "/a/b".toList }
        { objs := [("a".toList, c2ColObj), ("a/b".toList, c4Obj)] }
      = (412, { objs := [("a".toList, c2ColObj), ("a/b".toList, c4Obj)] }) := by
  refine ⟨?_, ?_, ?_, ?_⟩
  · exact copy_move_destination_checks_precede_source.1 _ _ "/q/w".toList
      rfl (by decide) (by decide) (by decide)
  · exact copy_move_destination_checks_precede_source.2.1 _ _ "/a/b".toList
      rfl (by decide) rfl (Or.inr (by decide)) (by decide)
  · exact copy_move_destination_checks_precede_source.2.2.1 _ _ "/q/w".toList
      rfl (by decide) (by decide) (by decide)
  · exact copy_move_destination_checks_precede_source.2.2.2 _ _ "/a/b".toList
      rfl (by decide) (by decide) (Or.inr (by decide)) (by decide)

/-! ### C9: MOVE never checks the per-object source DELETE responses -/

def c9DirReq : Req :=
  { pathname := "/s".toList, destination := some "/t".toList }

def c9DirStore : Store :=
  { objs := [("s".toList, c2ColObj), ("s/x".toList, c4Obj)]
    deleteFails := ["s".toList, "s/x".toList] }

def c9DirResult : Store :=
  { objs := [("s".toList, c2ColObj), ("s/x".toList, c4Obj),
             ("t".toList, c2ColObj), ("t/x".toList, c4Obj)]
    deleteFails := ["s".toList, "s/x".toList] }

/-- C9.  The source DELETE issued after a successful copy is never checked:
a plain-resource MOVE to a fresh destination whose source delete fails at
the store still answers 201, with source and destination simultaneously
present afterwards; likewise (second conjunct, concretely) a directory MOVE
whose every source delete fails answers 201 and leaves the entire source
subtree and the entire destination subtree both present. -/
theorem move_source_deletes_unchecked :
    (∀ (r : Req) (s : Store) (dh : Key) (src : StoredObj),
      r.destination = some dh →
      (destinationParent (normalizeDestination dh) = [] ∨
        (assoc s.objs (destinationParent (normalizeDestination dh))).isSome
          = true) →
      assoc s.objs (normalizeDestination dh) = none →
      assoc s.objs (make_resource_path r) = some src →
      assoc src.meta rtKey ≠ some collectionSentinel →
      make_resource_path r ≠ normalizeDestination dh →
      make_resource_path r ∈ s.deleteFails →
      (handle_move r s = (201, storePut s (normalizeDestination dh) src) ∧
        assoc (storePut s (normalizeDestination dh) src).objs
          (make_resource_path r) = some src ∧
        assoc (storePut s (normalizeDestination dh) src).objs
          (normalizeDestination dh) = some src)) ∧
    handle_move c9DirReq c9DirStore = (201, c9DirResult) := by
  constructor
  · intro r s dh src hdh hpar hdst hsrc hplain hne hdf
    have hpar' : ¬(destinationParent (normalizeDestination dh) ≠ [] ∧
        assoc s.objs (destinationParent (normalizeDestination dh)) = none) := by
      rcases hpar with h | h
      · intro hc
        exact hc.1 h
      · intro hc
        rw [hc.2] at h
        simp at h
    have hde : ((assoc s.objs (normalizeDestination dh)).isSome = true)
        = False := by
      rw [hdst]
      simp
    have hdb : (assoc s.objs (normalizeDestination dh)).isSome = false := by
      rw [hdst]
      rfl
    refine ⟨?_, ?_, ?_⟩
    · simp only [handle_move, hdh]
      rw [if_neg hpar']
      rw [if_neg (fun hc => (hde ▸ hc.1 : False))]
      simp only [hsrc]
      rw [if_neg hne]
      simp only [hdb, Bool.false_eq_true, if_false]
      rw [if_neg hplain]
      have hsd : storeDeleteIgnore
          (storePut s (normalizeDestination dh) src) (make_resource_path r)
          = storePut s (normalizeDestination dh) src := by
        simp only [storeDeleteIgnore, storeDelete, storePut]
        rw [if_pos hdf]
      rw [hsd]
    · rw [storePut]
      exact (assoc_putList_ne s.objs (normalizeDestination dh) src
        (make_resource_path r) hne).trans hsrc
    · rw [storePut]
      exact assoc_putList_self s.objs (normalizeDestination dh) src
  · decide

/-- Witness for C9's universally quantified leg at a concrete plain-resource
MOVE whose source delete fails. -/
theorem move_source_deletes_unchecked_witness :
    handle_move { pathname := "/s".toList, destination := some "/t".toList }
        { objs := [("s".toList, c4Obj)], deleteFails := ["s".toList] }
      = (201, storePut
          { objs := [("s".toList, c4Obj)], deleteFails := ["s".toList] }
          (normalizeDestination "/t".toList) c4Obj) ∧
    assoc (storePut
        { objs := [("s".toList, c4Obj)], deleteFails := ["s".toList] }
        (normalizeDestination "/t".toList) c4Obj).objs "s".toList
      = some c4Obj := by
  have h := move_source_deletes_unchecked.1
    { pathname := "/s".toList, destination := some "/t".toList }
    { objs := [("s".toList, c4Obj)], deleteFails := ["s".toList] }
    "/t".toList c4Obj rfl (Or.inl (by decide)) (by decide) (by decide)
    (by decide) (by decide) (by decide)
  exact ⟨h.1, h.2.1⟩

/-! ### C10: PROPFIND without a Depth header -/

/-- The Depth dispatch with no Depth header takes the `infinity` branch. -/
theorem propfindDepthPart_noDepth (r : Req) (s : Store) (rp : Key)
    (ent : Option S3Object) (hd : r.depth = none) :
    propfindDepthPart r s rp ent true
      = ⟨207, ent :: propfindList s rp true⟩ := by
  simp only [propfindDepthPart, hd, Option.getD_none, if_true]
  rw [if_neg (by decide), if_neg (by decide)]

/-- The Depth dispatch at an explicit `infinity`. -/
theorem propfindDepthPart_infinity (r : Req) (s : Store) (rp : Key)
    (ent : Option S3Object) (hd : r.depth = some "infinity".toList) :
    propfindDepthPart r s rp ent true
      = ⟨207, ent :: propfindList s rp true⟩ := by
  simp only [propfindDepthPart, hd, Option.getD_some, if_true]
  rw [if_neg (by decide), if_neg (by decide)]

/-- C10.  A PROPFIND with no Depth header at all on an existing sentinel-
marked collection enumerates the full recursive subtree under the collection
(self entry followed by every descendant from the recursive listing), and
its result coincides with the same request carrying `Depth: infinity`. -/
theorem propfind_missing_depth_infinity (r : Req) (s : Store) (o : StoredObj)
    (hd : r.depth = none)
    (hrp : make_resource_path r ≠ [])
    (ho : assoc s.objs (make_resource_path r) = some o)
    (hcol : assoc o.meta rtKey = some collectionSentinel) :
    handle_propfind r s
      = ⟨207, some (headS3Object (make_resource_path r) o)
          :: propfindList s (make_resource_path r) true⟩ ∧
    handle_propfind r s
      = handle_propfind { r with depth := some "infinity".toList } s := by
  have hb : decide (((assoc o.meta rtKey).getD [])
      = collectionSentinel) = true := by
    rw [hcol]
    exact decide_eq_true rfl
  have hmain : handle_propfind r s
      = ⟨207, some (headS3Object (make_resource_path r) o)
          :: propfindList s (make_resource_path r) true⟩ := by
    rw [handle_propfind_found r s o hrp ho, hb]
    exact propfindDepthPart_noDepth r s _ _ hd
  have hmp : make_resource_path { r with depth := some "infinity".toList }
      = make_resource_path r := rfl
  have hinf : handle_propfind { r with depth := some "infinity".toList } s
      = ⟨207, some (headS3Object (make_resource_path r) o)
          :: propfindList s (make_resource_path r) true⟩ := by
    rw [handle_propfind_found { r with depth := some "infinity".toList } s o
      (by rw [hmp]; exact hrp) (by rw [hmp]; exact ho), hmp, hb]
    exact propfindDepthPart_infinity _ s _ _ rfl
  exact ⟨hmain, hmain.trans hinf.symm⟩

/-- Witness for C10 at a two-level concrete subtree. -/
theorem propfind_missing_depth_infinity_witness :
    handle_propfind { pathname := "/c".toList }
        (c5Store c4Obj c2ColObj c2ColObj [("c/b/g1".toList, c4Obj)] [] ⟨[]⟩)
      = ⟨207, some (headS3Object "c".toList c2ColObj)
          :: propfindList
            (c5Store c4Obj c2ColObj c2ColObj [("c/b/g1".toList, c4Obj)] [] ⟨[]⟩)
            "c".toList true⟩ :=
  (propfind_missing_depth_infinity { pathname := "/c".toList }
    (c5Store c4Obj c2ColObj c2ColObj [("c/b/g1".toList, c4Obj)] [] ⟨[]⟩)
    c2ColObj rfl (by decide) (by decide) (by decide)).1
